import Mathlib

/-!
Shallow embedding of the GetaiCertified backend (src/main.py, src/schemas.py).

The MongoDB document store (collections `user`, `enrollment`, `progress`,
`certificate`) is modelled as lists of records inside a `DB` structure;
`find_one` is `List.find?` (first match in insertion order), and
`update_one` with `upsert=True` updates the first matching document or
appends a freshly inserted one.  `ObjectId()` freshness is modelled by a
counter `nextObjectId` carried in the state.  JWTs (library `jose`) are
modelled as a payload plus an abstract signature: signing pairs the payload
with the secret key, and verification checks that pair, which captures
exactly "correctly signed vs tampered".  Time is an abstract `Nat` clock;
`jose` rejects a token iff its `exp` claim is strictly in the past.
-/

/-- Constant `SECRET_KEY` from main.py (default value of the JWT_SECRET setting). -/
def SECRET_KEY : String := "dev-secret-change-me"

/-- Constant `ACCESS_TOKEN_EXPIRE_MINUTES = 60 * 24 * 7` from main.py. -/
def ACCESS_TOKEN_EXPIRE_MINUTES : Nat := 60 * 24 * 7

/-- Decoded JWT payload: `sub` claim (may be absent: malformed token) and
`exp` claim (absolute expiry time). -/
structure JwtPayload where
  sub : Option String
  exp : Nat
deriving DecidableEq, Repr

/-- A JWT: payload plus signature.  A genuinely signed token has
`sig = (payload, key)`; any other `sig` is a tampered/forged token. -/
structure Jwt where
  payload : JwtPayload
  sig : JwtPayload × String
deriving DecidableEq, Repr

/-- Function `jwt.encode(payload, key)`: attach the signature over payload and key. -/
def jwtEncode (payload : JwtPayload) (key : String) : Jwt :=
  { payload := payload, sig := (payload, key) }

/-- Function `jwt.decode(token, key)`: succeeds iff the signature verifies and the
token is not expired (`jose` raises iff `exp < now`). -/
def jwtDecode (t : Jwt) (key : String) (now : Nat) : Option JwtPayload :=
  if t.sig = (t.payload, key) ∧ now ≤ t.payload.exp then some t.payload else none

/-- Function `create_access_token({"sub": sub})` from main.py: payload carries the
subject and `exp = now + lifetime` (default 7 days, in minutes). -/
def create_access_token (sub : String) (now : Nat)
    (lifetime : Nat := ACCESS_TOKEN_EXPIRE_MINUTES) : Jwt :=
  jwtEncode { sub := some sub, exp := now + lifetime } SECRET_KEY

/-- The token-validation part of `get_current_user` (main.py lines 82-88):
decode with the secret key, then extract the `sub` claim; `none` is the
Unauthorized outcome. -/
def validate_token (t : Jwt) (now : Nat) : Option String :=
  (jwtDecode t SECRET_KEY now).bind (fun p => p.sub)

/-- A document of the `user` collection, as created by main.py (schemas.User
fields that the handlers read or write). -/
structure UserDoc where
  name : String
  email : String
  points : Int
  badges : List String
deriving DecidableEq, Repr

/-- A document of the `enrollment` collection as written by `enroll`. -/
structure EnrollmentDoc where
  user_email : String
  course_slug : String
  status : String
deriving DecidableEq, Repr

/-- A document of the `progress` collection.  `week_unlocked` is optional:
the upsert inside `complete_lesson` first creates the document without that
field (Mongo builds the inserted document from the filter plus `$addToSet`
and `$inc` only), and the subsequent `$set` fills it in. -/
structure ProgressDoc where
  user_email : String
  course_slug : String
  lessons_completed : List String
  week_unlocked : Option Nat
  xp : Int
deriving DecidableEq, Repr

/-- A document of the `certificate` collection as written by
`issue_certificate`. -/
structure CertDoc where
  user_email : String
  course_slug : String
  certificate_id : Nat
  verified : Bool
deriving DecidableEq, Repr

/-- The document store.  `nextObjectId` models the fresh-`ObjectId`
generator used for certificate ids. -/
structure DB where
  users : List UserDoc
  enrollments : List EnrollmentDoc
  progresses : List ProgressDoc
  certificates : List CertDoc
  nextObjectId : Nat
deriving DecidableEq, Repr

/-- Mongo `update_one(filter, update, upsert=True)`: update the first
document matching `p` with `f`, or append the inserted document `ins` when
none matches. -/
def upsertOne {α : Type} (l : List α) (p : α → Bool) (f : α → α) (ins : α) : List α :=
  match l with
  | [] => [ins]
  | x :: xs => if p x then f x :: xs else x :: upsertOne xs p f ins

/-- Mongo `update_one(filter, update)` without upsert: update the first
matching document, if any. -/
def setOne {α : Type} (l : List α) (p : α → Bool) (f : α → α) : List α :=
  match l with
  | [] => []
  | x :: xs => if p x then f x :: xs else x :: setOne xs p f

/-- Mongo `$addToSet`: append the value at the end unless already present. -/
def addToSet (l : List String) (x : String) : List String :=
  if x ∈ l then l else l ++ [x]

/-- Filter of the `progress` collection on its natural key. -/
def progMatch (e s : String) (p : ProgressDoc) : Bool :=
  p.user_email == e && p.course_slug == s

/-- Filter of the `enrollment` collection on its natural key. -/
def enrollMatch (e s : String) (r : EnrollmentDoc) : Bool :=
  r.user_email == e && r.course_slug == s

/-- Filter of the `certificate` collection on its natural key. -/
def certMatch (e s : String) (c : CertDoc) : Bool :=
  c.user_email == e && c.course_slug == s

/-- Lookup `db["user"].find_one({"email": email}) if db else None`. -/
def find_one_user (odb : Option DB) (email : String) : Option UserDoc :=
  match odb with
  | none => none
  | some d => d.users.find? (fun u => u.email == email)

/-- Error taxonomy of the handlers (HTTP 401 / 403 / 500 / 400). -/
inductive ApiError where
  | unauthorized
  | forbidden
  | notConfigured
  | badRequest
deriving DecidableEq, Repr

/-- Dependency `get_current_user` (main.py lines 76-92): decode the bearer token, pull
the `sub` claim, then look the user up; any failure is Unauthorized. -/
def get_current_user (odb : Option DB) (tok : Jwt) (now : Nat) :
    Except ApiError UserDoc :=
  match validate_token tok now with
  | none => Except.error ApiError.unauthorized
  | some email =>
    match find_one_user odb email with
    | none => Except.error ApiError.unauthorized
    | some u => Except.ok u

/-- Handler of `GET /api/me`: returns the current user (main.py lines 168-170). -/
def me (odb : Option DB) (tok : Jwt) (now : Nat) : Except ApiError UserDoc :=
  get_current_user odb tok now

/-- Python `str.title()` character walk: an alphabetic character is
uppercased after a non-cased character and lowercased after a cased one. -/
def titleAux : List Char → Bool → List Char
  | [], _ => []
  | c :: cs, prevCased =>
    if c.isAlpha then
      (if prevCased then c.toLower else c.toUpper) :: titleAux cs true
    else
      c :: titleAux cs false

/-- Python `str.title()`. -/
def titlecase (s : String) : String :=
  { data := titleAux s.data false }

/-- Python `email.split("@")[0]`: everything before the first `@`. -/
def localPart (email : String) : String :=
  { data := email.data.takeWhile (fun c => c ≠ '@') }

/-- The `User(...)` document created by `login` / `google_auth` when no user
with the email exists (main.py line 143): title-cased local part as name,
schema defaults `points=0`, `badges=[]`. -/
def mkDefaultUser (email : String) : UserDoc :=
  { name := titlecase (localPart email)
  , email := email
  , points := 0
  , badges := [] }

/-- Identity resolution shared by `login` (main.py lines 141-144) and
`google_auth` (lines 158-161): look the user up by email; if absent, insert
a default user document (`create_document` appends to the collection). -/
def resolve_or_create (d : DB) (email : String) : DB :=
  match d.users.find? (fun u => u.email == email) with
  | some _ => d
  | none => { d with users := d.users ++ [mkDefaultUser email] }

/-- The enrollment document inserted by `enroll`'s first upsert
(`$setOnInsert {"status": "enrolled"}` plus the filter fields). -/
def enrollIns (e s : String) : EnrollmentDoc :=
  { user_email := e, course_slug := s, status := "enrolled" }

/-- The progress document inserted by `enroll`'s second upsert
(`$setOnInsert {"lessons_completed": [], "week_unlocked": 1, "xp": 0}`). -/
def progressIns (e s : String) : ProgressDoc :=
  { user_email := e, course_slug := s, lessons_completed := []
  , week_unlocked := some 1, xp := 0 }

/-- The store effect of `enroll` (main.py lines 208-217): two
`$setOnInsert` upserts, which leave an existing document untouched. -/
def enroll_db (d : DB) (e s : String) : DB :=
  { d with
    enrollments := upsertOne d.enrollments (enrollMatch e s) (fun r => r) (enrollIns e s)
    progresses := upsertOne d.progresses (progMatch e s) (fun r => r) (progressIns e s) }

/-- Handler of `POST /api/enroll` (main.py lines 202-218): auth dependency, store
check, identity check, then the two upserts.  The pair returns the handler
outcome together with the resulting store. -/
def enroll (odb : Option DB) (tok : Jwt) (now : Nat) (e s : String) :
    Except ApiError Bool × Option DB :=
  match get_current_user odb tok now with
  | Except.error err => (Except.error err, odb)
  | Except.ok current =>
    match odb with
    | none => (Except.error ApiError.notConfigured, odb)
    | some d =>
      if current.email == e then
        (Except.ok true, some (enroll_db d e s))
      else
        (Except.error ApiError.forbidden, odb)

/-- The update applied by `complete_lesson`'s upsert to an existing
progress document: `$addToSet` the lesson, `$inc` the xp. -/
def completeUpd (lid : String) (xr : Int) (p : ProgressDoc) : ProgressDoc :=
  { p with lessons_completed := addToSet p.lessons_completed lid, xp := p.xp + xr }

/-- The progress document inserted by `complete_lesson`'s upsert when the
pair has no document yet: filter fields, the one lesson, the xp increment;
no `week_unlocked` field. -/
def completeIns (e s lid : String) (xr : Int) : ProgressDoc :=
  { user_email := e, course_slug := s, lessons_completed := [lid]
  , week_unlocked := none, xp := xr }

/-- The `$set {"week_unlocked": w}` update of `complete_lesson`. -/
def setWeek (w : Nat) (p : ProgressDoc) : ProgressDoc :=
  { p with week_unlocked := some w }

/-- The store effect and return value of `complete_lesson` (main.py lines
234-249): upsert the lesson/xp, re-read the document, recompute
`week_unlocked = min(3, 1 + lcount // 4)` from the list length, `$set` it,
and return it. -/
def complete_lesson_db (d : DB) (e s lid : String) (xr : Int) : DB × Nat :=
  let progresses1 := upsertOne d.progresses (progMatch e s)
      (completeUpd lid xr) (completeIns e s lid xr)
  let prog := progresses1.find? (progMatch e s)
  let lcount := (prog.elim [] (fun p => p.lessons_completed)).length
  let week := min 3 (1 + lcount / 4)
  let progresses2 := setOne progresses1 (progMatch e s) (setWeek week)
  ({ d with progresses := progresses2 }, week)

/-- The request body of `POST /api/progress/complete` (`ProgressUpdate`). -/
structure ProgressUpdate where
  email : String
  course_slug : String
  lesson_id : String
  xp : Int := 10
deriving DecidableEq, Repr

/-- Handler of `POST /api/progress/complete` (main.py lines 228-249): auth, store
check, identity check, then the progress update; returns the new
`week_unlocked` and the resulting store. -/
def complete_lesson (odb : Option DB) (tok : Jwt) (now : Nat)
    (body : ProgressUpdate) : Except ApiError Nat × Option DB :=
  match get_current_user odb tok now with
  | Except.error err => (Except.error err, odb)
  | Except.ok current =>
    match odb with
    | none => (Except.error ApiError.notConfigured, odb)
    | some d =>
      if current.email == body.email then
        let r := complete_lesson_db d body.email body.course_slug body.lesson_id body.xp
        (Except.ok r.2, some r.1)
      else
        (Except.error ApiError.forbidden, odb)

/-- First progress document of the pair, as `find_one` returns it. -/
def findProgress (d : DB) (e s : String) : Option ProgressDoc :=
  d.progresses.find? (progMatch e s)

/-- The pair's completed-lesson list (empty when no document exists). -/
def lessonsOf (d : DB) (e s : String) : List String :=
  (findProgress d e s).elim [] (fun p => p.lessons_completed)

/-- The pair's accumulated xp (0 when no document exists). -/
def xpOf (d : DB) (e s : String) : Int :=
  (findProgress d e s).elim 0 (fun p => p.xp)

/-- The pair's stored `week_unlocked` field, when present. -/
def weekStored (d : DB) (e s : String) : Option Nat :=
  (findProgress d e s).bind (fun p => p.week_unlocked)

/-- The weeks returned by a sequence of `complete_lesson` calls for one
(email, course_slug) pair, one `(lesson_id, xp)` input per call. -/
def weekSeq (d : DB) (e s : String) : List (String × Int) → List Nat
  | [] => []
  | (lid, xr) :: rest =>
    let r := complete_lesson_db d e s lid xr
    r.2 :: weekSeq r.1 e s rest

/-- The certificate update `$set {"certificate_id": cid, "verified": true}`
applied to an existing document. -/
def certUpd (cid : Nat) (c : CertDoc) : CertDoc :=
  { c with certificate_id := cid, verified := true }

/-- The certificate document inserted when the pair has none. -/
def certIns (e s : String) (cid : Nat) : CertDoc :=
  { user_email := e, course_slug := s, certificate_id := cid, verified := true }

/-- The store effect and return value of `issue_certificate` (main.py lines
290-296): a fresh id (`str(ObjectId())`, modelled by the counter) and one
`$set` upsert on the pair's certificate document. -/
def issue_certificate_db (d : DB) (e s : String) : DB × Nat :=
  let cid := d.nextObjectId
  ({ d with
      nextObjectId := d.nextObjectId + 1
      certificates := upsertOne d.certificates (certMatch e s) (certUpd cid) (certIns e s cid) }
  , cid)

/-- Handler of `POST /api/certificate` (main.py lines 284-296): auth, store check,
identity check, then the certificate upsert. -/
def issue_certificate (odb : Option DB) (tok : Jwt) (now : Nat) (e s : String) :
    Except ApiError Nat × Option DB :=
  match get_current_user odb tok now with
  | Except.error err => (Except.error err, odb)
  | Except.ok current =>
    match odb with
    | none => (Except.error ApiError.notConfigured, odb)
    | some d =>
      if current.email == e then
        let r := issue_certificate_db d e s
        (Except.ok r.2, some r.1)
      else
        (Except.error ApiError.forbidden, odb)

/-- Descending-xp order used by the leaderboard sort. -/
def xpDesc (a b : String × Int) : Prop := b.2 ≤ a.2

instance : DecidableRel xpDesc := fun a b => inferInstanceAs (Decidable (b.2 ≤ a.2))

instance : IsTotal (String × Int) xpDesc := ⟨fun a b => le_total b.2 a.2⟩

instance : IsTrans (String × Int) xpDesc := ⟨fun _ _ _ h1 h2 => le_trans h2 h1⟩

/-- The view assembled by `GET /api/dashboard` (main.py lines 252-275). -/
structure DashboardView where
  user_name : String
  user_email : String
  user_points : Int
  user_badges : List String
  lessons_completed : List String
  week_unlocked : Nat
  xp : Int
  leaderboard : List (String × Int)
deriving DecidableEq, Repr

/-- Handler of `GET /api/dashboard`: user fields with "Learner"/empty fallbacks,
progress fields with empty/zero fallbacks, and the leaderboard: all
progress records projected to (user_email, xp), sorted by descending xp,
first 10 taken. -/
def dashboard (odb : Option DB) (email : String) (slug : String) : DashboardView :=
  let user := find_one_user odb email
  let progress := match odb with
    | none => none
    | some d => d.progresses.find? (progMatch email slug)
  let lb := match odb with
    | none => []
    | some d =>
      (List.insertionSort xpDesc (d.progresses.map (fun p => (p.user_email, p.xp)))).take 10
  { user_name := (user.map (fun u => u.name)).getD "Learner"
  , user_email := email
  , user_points := (user.map (fun u => u.points)).getD ((progress.map (fun p => p.xp)).getD 0)
  , user_badges := (user.map (fun u => u.badges)).getD []
  , lessons_completed := (progress.map (fun p => p.lessons_completed)).getD []
  , week_unlocked := ((progress.bind (fun p => p.week_unlocked)).getD 1)
  , xp := (progress.map (fun p => p.xp)).getD 0
  , leaderboard := lb }

/-- A sample user record as `login` would create it for alice. -/
def aliceUser : UserDoc :=
  { name := "Alice", email := "alice@x.com", points := 0, badges := [] }

/-- A store holding only alice, with no progress yet. -/
def dbAlice : DB :=
  { users := [aliceUser], enrollments := [], progresses := [], certificates := []
  , nextObjectId := 0 }

/-- A store where alice has already completed three distinct lessons. -/
def dbThree : DB :=
  { users := [aliceUser]
  , enrollments := [enrollIns "alice@x.com" "3-week-ai"]
  , progresses := [{ user_email := "alice@x.com", course_slug := "3-week-ai"
                   , lessons_completed := ["l1", "l2", "l3"]
                   , week_unlocked := some 1, xp := 30 }]
  , certificates := []
  , nextObjectId := 0 }

/-- A store with three progress records carrying xp 50, 30, 80. -/
def dbBoard : DB :=
  { users := [aliceUser]
  , enrollments := []
  , progresses :=
      [ { user_email := "a@x.com", course_slug := "3-week-ai"
        , lessons_completed := [], week_unlocked := some 1, xp := 50 }
      , { user_email := "b@x.com", course_slug := "3-week-ai"
        , lessons_completed := [], week_unlocked := some 1, xp := 30 }
      , { user_email := "c@x.com", course_slug := "3-week-ai"
        , lessons_completed := [], week_unlocked := some 1, xp := 80 } ]
  , certificates := []
  , nextObjectId := 0 }

/-- A token for alice issued at time 0 with lifetime 100. -/
def aliceTok : Jwt := create_access_token "alice@x.com" 0 100

/-- A sample lesson-completion request for alice's fourth lesson. -/
def aliceBody : ProgressUpdate :=
  { email := "alice@x.com", course_slug := "3-week-ai", lesson_id := "l4", xp := 10 }

/-- A tampered token: the signature does not match the payload. -/
def badTok : Jwt :=
  { payload := { sub := some "alice@x.com", exp := 1000 }
  , sig := ({ sub := some "alice@x.com", exp := 999 }, SECRET_KEY) }

/-- A structurally malformed token: correctly signed but with no subject. -/
def noSubTok : Jwt :=
  { payload := { sub := none, exp := 1000 }
  , sig := ({ sub := none, exp := 1000 }, SECRET_KEY) }

theorem find?_upsertOne {α : Type} (l : List α) (p : α → Bool) (f : α → α) (ins : α)
    (hins : p ins = true) (hf : ∀ x, p x = true → p (f x) = true) :
    (upsertOne l p f ins).find? p = some ((l.find? p).elim ins f) := by
  induction l with
  | nil => simp [upsertOne, List.find?, hins]
  | cons x xs ih =>
    by_cases hx : p x = true
    · rw [upsertOne, if_pos hx, List.find?_cons_of_pos _ (hf x hx),
        List.find?_cons_of_pos _ hx]
      rfl
    · rw [upsertOne, if_neg hx, List.find?_cons_of_neg _ hx,
        List.find?_cons_of_neg _ hx]
      exact ih

theorem find?_setOne {α : Type} (l : List α) (p : α → Bool) (f : α → α)
    (hf : ∀ x, p x = true → p (f x) = true) :
    (setOne l p f).find? p = (l.find? p).map f := by
  induction l with
  | nil => simp [setOne]
  | cons x xs ih =>
    by_cases hx : p x = true
    · rw [setOne, if_pos hx, List.find?_cons_of_pos _ (hf x hx),
        List.find?_cons_of_pos _ hx]
      rfl
    · rw [setOne, if_neg hx, List.find?_cons_of_neg _ hx,
        List.find?_cons_of_neg _ hx]
      exact ih

theorem upsertOne_of_find?_eq_none {α : Type} (l : List α) (p : α → Bool)
    (f : α → α) (ins : α) (h : l.find? p = none) :
    upsertOne l p f ins = l ++ [ins] := by
  induction l with
  | nil => rfl
  | cons x xs ih =>
    by_cases hx : p x = true
    · rw [List.find?_cons_of_pos _ hx] at h
      cases h
    · rw [List.find?_cons_of_neg _ hx] at h
      rw [upsertOne, if_neg hx, ih h]
      rfl

theorem upsertOne_id_of_find?_isSome {α : Type} (l : List α) (p : α → Bool)
    (ins : α) (h : (l.find? p).isSome) :
    upsertOne l p (fun r => r) ins = l := by
  induction l with
  | nil => simp [List.find?] at h
  | cons x xs ih =>
    by_cases hx : p x = true
    · rw [upsertOne, if_pos hx]
    · rw [List.find?_cons_of_neg _ hx] at h
      rw [upsertOne, if_neg hx, ih h]

theorem filter_upsertOne_singleton {α : Type} (l : List α) (p : α → Bool)
    (f : α → α) (ins x : α) (hf : ∀ y, p y = true → p (f y) = true)
    (h : l.filter p = [x]) :
    (upsertOne l p f ins).filter p = [f x] := by
  induction l with
  | nil => simp at h
  | cons y ys ih =>
    by_cases hy : p y = true
    · rw [List.filter_cons_of_pos hy] at h
      have hyx : y = x := (List.cons_eq_cons.mp h).1
      have hys : ys.filter p = [] := (List.cons_eq_cons.mp h).2
      rw [upsertOne, if_pos hy, List.filter_cons_of_pos (hf y hy), hys, hyx]
    · rw [List.filter_cons_of_neg hy] at h
      rw [upsertOne, if_neg hy, List.filter_cons_of_neg hy]
      exact ih h

theorem find?_eq_none_of_filter_eq_nil {α : Type} (l : List α) (p : α → Bool)
    (h : l.filter p = []) : l.find? p = none := by
  rw [List.filter_eq_nil_iff] at h
  exact List.find?_eq_none.mpr h

theorem find?_append_of_none {α : Type} (l1 l2 : List α) (p : α → Bool)
    (h : l1.find? p = none) : (l1 ++ l2).find? p = l2.find? p := by
  induction l1 with
  | nil => rfl
  | cons x xs ih =>
    by_cases hx : p x = true
    · rw [List.find?_cons_of_pos _ hx] at h
      cases h
    · rw [List.find?_cons_of_neg _ hx] at h
      rw [List.cons_append, List.find?_cons_of_neg _ hx, ih h]

theorem length_le_addToSet (l : List String) (x : String) :
    l.length ≤ (addToSet l x).length := by
  unfold addToSet
  by_cases hx : x ∈ l
  · rw [if_pos hx]
  · rw [if_neg hx]
    simp

theorem addToSet_nodup (l : List String) (x : String) (h : l.Nodup) :
    (addToSet l x).Nodup := by
  unfold addToSet
  by_cases hx : x ∈ l
  · rw [if_pos hx]; exact h
  · rw [if_neg hx]
    simp [List.nodup_append, h, hx]

theorem progMatch_completeIns (e s lid : String) (xr : Int) :
    progMatch e s (completeIns e s lid xr) = true := by
  simp [progMatch, completeIns]

theorem progMatch_completeUpd (e s lid : String) (xr : Int) (p : ProgressDoc)
    (h : progMatch e s p = true) : progMatch e s (completeUpd lid xr p) = true := h

theorem progMatch_setWeek (e s : String) (w : Nat) (p : ProgressDoc)
    (h : progMatch e s p = true) : progMatch e s (setWeek w p) = true := h

theorem find?_complete_upsert (d : DB) (e s lid : String) (xr : Int) :
    (upsertOne d.progresses (progMatch e s) (completeUpd lid xr)
        (completeIns e s lid xr)).find? (progMatch e s) =
      some ((d.progresses.find? (progMatch e s)).elim (completeIns e s lid xr)
        (completeUpd lid xr)) :=
  find?_upsertOne _ _ _ _ (progMatch_completeIns e s lid xr)
    (progMatch_completeUpd e s lid xr)

theorem week_step (d : DB) (e s lid : String) (xr : Int) :
    (complete_lesson_db d e s lid xr).2 =
      min 3 (1 + (addToSet (lessonsOf d e s) lid).length / 4) := by
  simp only [complete_lesson_db, find?_complete_upsert]
  cases h : d.progresses.find? (progMatch e s) with
  | none => simp [h, lessonsOf, findProgress, completeIns, addToSet]
  | some p => simp [h, lessonsOf, findProgress, completeUpd]

theorem findProgress_complete (d : DB) (e s lid : String) (xr : Int) :
    findProgress (complete_lesson_db d e s lid xr).1 e s =
      some (setWeek (complete_lesson_db d e s lid xr).2
        ((findProgress d e s).elim (completeIns e s lid xr) (completeUpd lid xr))) := by
  simp only [complete_lesson_db, findProgress,
    find?_setOne _ _ _ (progMatch_setWeek e s _), find?_complete_upsert]
  rfl

theorem lessonsOf_step (d : DB) (e s lid : String) (xr : Int) :
    lessonsOf (complete_lesson_db d e s lid xr).1 e s = addToSet (lessonsOf d e s) lid := by
  rw [lessonsOf, findProgress_complete]
  cases h : findProgress d e s with
  | none => simp [lessonsOf, h, setWeek, completeIns, addToSet]
  | some p => simp [lessonsOf, h, setWeek, completeUpd]

theorem xpOf_step (d : DB) (e s lid : String) (xr : Int) :
    xpOf (complete_lesson_db d e s lid xr).1 e s = xpOf d e s + xr := by
  rw [xpOf, findProgress_complete]
  cases h : findProgress d e s with
  | none => simp [xpOf, h, setWeek, completeIns]
  | some p => simp [xpOf, h, setWeek, completeUpd]

theorem weekStored_step (d : DB) (e s lid : String) (xr : Int) :
    weekStored (complete_lesson_db d e s lid xr).1 e s =
      some (complete_lesson_db d e s lid xr).2 := by
  rw [weekStored, findProgress_complete]
  rfl

/-- C1: every successful `complete_lesson` call returns
`week_unlocked = min(3, 1 + n / 4)` where `n` is the number of distinct
completed lessons of the (email, course_slug) pair after adding
`lesson_id`; consequently after 4 distinct completions it is 2, after 8 it
is 3, and after 9 it is still 3. -/
theorem complete_lesson_week_formula (d : DB) (tok : Jwt) (now : Nat)
    (body : ProgressUpdate) (u : UserDoc)
    (hu : get_current_user (some d) tok now = Except.ok u)
    (he : u.email = body.email)
    (hnd : (lessonsOf d body.email body.course_slug).Nodup) :
    (complete_lesson (some d) tok now body).1 =
      Except.ok (min 3 (1 +
        (addToSet (lessonsOf d body.email body.course_slug) body.lesson_id).dedup.length / 4)) := by
  have hbe : (u.email == body.email) = true := by simp [he]
  have hdedup : (addToSet (lessonsOf d body.email body.course_slug) body.lesson_id).dedup
      = addToSet (lessonsOf d body.email body.course_slug) body.lesson_id :=
    (addToSet_nodup _ _ hnd).dedup
  simp only [complete_lesson, hu, hbe, if_true, hdedup]
  rw [week_step]

/-- C4: for a lesson already in the pair's completed set the set is left
unchanged, while xp is incremented by the reward on every call. -/
theorem complete_lesson_xp_always (d : DB) (e s lid : String) (xr : Int) :
    (lid ∈ lessonsOf d e s →
      lessonsOf (complete_lesson_db d e s lid xr).1 e s = lessonsOf d e s) ∧
    xpOf (complete_lesson_db d e s lid xr).1 e s = xpOf d e s + xr := by
  constructor
  · intro hmem
    rw [lessonsOf_step, addToSet, if_pos hmem]
  · exact xpOf_step d e s lid xr

/-- C5: a token issued for an email validates back to that email before
expiry; after expiry, with a tampered signature, or with a missing subject,
validation fails and the bearer check reports Unauthorized. -/
theorem token_roundtrip (email : String) (t0 L now : Nat) (t : Jwt) (odb : Option DB) :
    (now ≤ t0 + L →
      validate_token (create_access_token email t0 L) now = some email) ∧
    (t0 + L < now →
      validate_token (create_access_token email t0 L) now = none) ∧
    (t.sig ≠ (t.payload, SECRET_KEY) → validate_token t now = none) ∧
    (t.payload.sub = none → validate_token t now = none) ∧
    (t0 + L < now →
      get_current_user odb (create_access_token email t0 L) now =
        Except.error ApiError.unauthorized) ∧
    (t.sig ≠ (t.payload, SECRET_KEY) →
      get_current_user odb t now = Except.error ApiError.unauthorized) := by
  refine ⟨?_, ?_, ?_, ?_, ?_, ?_⟩
  · intro h
    simp [validate_token, create_access_token, jwtEncode, jwtDecode, h]
  · intro h
    have hn : ¬ (now ≤ t0 + L) := not_le.mpr h
    simp [validate_token, create_access_token, jwtEncode, jwtDecode, hn]
  · intro h
    simp [validate_token, jwtDecode, h]
  · intro h
    by_cases hs : t.sig = (t.payload, SECRET_KEY) ∧ now ≤ t.payload.exp
    · simp [validate_token, jwtDecode, hs, h]
    · simp [validate_token, jwtDecode, hs]
  · intro h
    have hn : ¬ (now ≤ t0 + L) := not_le.mpr h
    simp [get_current_user, validate_token, create_access_token, jwtEncode, jwtDecode, hn]
  · intro h
    simp [get_current_user, validate_token, jwtDecode, h]

theorem weekFormula_mono {a b : Nat} (h : a ≤ b) :
    min 3 (1 + a / 4) ≤ min 3 (1 + b / 4) :=
  min_le_min (Nat.le_refl 3) (Nat.add_le_add_left (Nat.div_le_div_right h) 1)

theorem weekFormula_bounds (a : Nat) :
    1 ≤ min 3 (1 + a / 4) ∧ min 3 (1 + a / 4) ≤ 3 :=
  ⟨le_min (by norm_num) (Nat.le_add_right 1 _), min_le_left _ _⟩

theorem weekSeq_lower (e s : String) (inputs : List (String × Int)) :
    ∀ d : DB, ∀ w ∈ weekSeq d e s inputs,
      min 3 (1 + (lessonsOf d e s).length / 4) ≤ w := by
  induction inputs with
  | nil =>
    intro d w hw
    simp [weekSeq] at hw
  | cons hd tl ih =>
    intro d w hw
    obtain ⟨lid, xr⟩ := hd
    simp only [weekSeq, List.mem_cons] at hw
    rcases hw with h1 | h2
    · rw [h1, week_step]
      exact weekFormula_mono (length_le_addToSet _ _)
    · have hbound := ih (complete_lesson_db d e s lid xr).1 w h2
      rw [lessonsOf_step] at hbound
      exact le_trans (weekFormula_mono (length_le_addToSet _ _)) hbound

theorem weekSeq_pairwise (e s : String) (inputs : List (String × Int)) :
    ∀ d : DB, List.Pairwise (fun a b => a ≤ b) (weekSeq d e s inputs) := by
  induction inputs with
  | nil => intro d; simp [weekSeq]
  | cons hd tl ih =>
    intro d
    obtain ⟨lid, xr⟩ := hd
    simp only [weekSeq]
    refine List.Pairwise.cons ?_ (ih _)
    intro w hw
    have hbound := weekSeq_lower e s tl (complete_lesson_db d e s lid xr).1 w hw
    rw [lessonsOf_step] at hbound
    rw [week_step]
    exact hbound

theorem weekSeq_bounds (e s : String) (inputs : List (String × Int)) :
    ∀ d : DB, ∀ w ∈ weekSeq d e s inputs, 1 ≤ w ∧ w ≤ 3 := by
  induction inputs with
  | nil =>
    intro d w hw
    simp [weekSeq] at hw
  | cons hd tl ih =>
    intro d w hw
    obtain ⟨lid, xr⟩ := hd
    simp only [weekSeq, List.mem_cons] at hw
    rcases hw with h1 | h2
    · rw [h1, week_step]
      exact weekFormula_bounds _
    · exact ih _ w h2

/-- C2: over any sequence of `complete_lesson` calls for one
(email, course_slug) pair the returned and stored `week_unlocked` values
are non-decreasing, always lie in [1, 3], and 3 is terminal. -/
theorem week_unlocked_monotone (d : DB) (e s : String)
    (inputs : List (String × Int)) :
    List.Pairwise (fun a b => a ≤ b) (weekSeq d e s inputs) ∧
    (∀ w ∈ weekSeq d e s inputs, 1 ≤ w ∧ w ≤ 3) ∧
    (∀ lid xr, weekStored (complete_lesson_db d e s lid xr).1 e s =
      some (complete_lesson_db d e s lid xr).2) ∧
    (∀ i j : Fin (weekSeq d e s inputs).length, i ≤ j →
      (weekSeq d e s inputs).get i = 3 → (weekSeq d e s inputs).get j = 3) := by
  refine ⟨weekSeq_pairwise e s inputs d, weekSeq_bounds e s inputs d,
    fun lid xr => weekStored_step d e s lid xr, ?_⟩
  intro i j hij h3
  rcases lt_or_eq_of_le hij with hlt | heq
  · have hmono := List.pairwise_iff_get.mp (weekSeq_pairwise e s inputs d) i j hlt
    rw [h3] at hmono
    have hub := (weekSeq_bounds e s inputs d _ (List.get_mem _ j.1 j.2)).2
    exact le_antisymm hub hmono
  · exact heq ▸ h3

theorem enrollMatch_ins (e s : String) : enrollMatch e s (enrollIns e s) = true := by
  simp [enrollMatch, enrollIns]

theorem progMatch_ins (e s : String) : progMatch e s (progressIns e s) = true := by
  simp [progMatch, progressIns]

/-- C3: starting from a store with no Enrollment and no Progress record for
the pair, `enroll` creates exactly one of each with the documented defaults,
and a second `enroll` call leaves the store exactly as after the first. -/
theorem enroll_idempotent (d : DB) (e s : String)
    (he : d.enrollments.filter (enrollMatch e s) = [])
    (hp : d.progresses.filter (progMatch e s) = []) :
    (enroll_db d e s).enrollments.filter (enrollMatch e s) =
      [{ user_email := e, course_slug := s, status := "enrolled" }] ∧
    (enroll_db d e s).progresses.filter (progMatch e s) =
      [{ user_email := e, course_slug := s, lessons_completed := []
       , week_unlocked := some 1, xp := 0 }] ∧
    enroll_db (enroll_db d e s) e s = enroll_db d e s := by
  have hfe : d.enrollments.find? (enrollMatch e s) = none :=
    find?_eq_none_of_filter_eq_nil _ _ he
  have hfp : d.progresses.find? (progMatch e s) = none :=
    find?_eq_none_of_filter_eq_nil _ _ hp
  have henr : (enroll_db d e s).enrollments = d.enrollments ++ [enrollIns e s] :=
    upsertOne_of_find?_eq_none _ _ _ _ hfe
  have hprg : (enroll_db d e s).progresses = d.progresses ++ [progressIns e s] :=
    upsertOne_of_find?_eq_none _ _ _ _ hfp
  refine ⟨?_, ?_, ?_⟩
  · rw [henr, List.filter_append, he]
    simp [enrollMatch, enrollIns]
  · rw [hprg, List.filter_append, hp]
    simp [progMatch, progressIns]
  · have hse : ((enroll_db d e s).enrollments.find? (enrollMatch e s)).isSome := by
      rw [henr, find?_append_of_none _ _ _ hfe,
        List.find?_cons_of_pos _ (enrollMatch_ins e s)]
      rfl
    have hsp : ((enroll_db d e s).progresses.find? (progMatch e s)).isSome := by
      rw [hprg, find?_append_of_none _ _ _ hfp,
        List.find?_cons_of_pos _ (progMatch_ins e s)]
      rfl
    show { enroll_db d e s with
      enrollments := upsertOne (enroll_db d e s).enrollments (enrollMatch e s)
        (fun r => r) (enrollIns e s)
      progresses := upsertOne (enroll_db d e s).progresses (progMatch e s)
        (fun r => r) (progressIns e s) } = enroll_db d e s
    rw [upsertOne_id_of_find?_isSome _ _ _ hse, upsertOne_id_of_find?_isSome _ _ _ hsp]

theorem resolve_or_create_of_found (d : DB) (email : String)
    (h : (d.users.find? (fun u => u.email == email)).isSome) :
    resolve_or_create d email = d := by
  cases hfind : d.users.find? (fun u => u.email == email) with
  | none => rw [hfind] at h; simp at h
  | some u => rw [resolve_or_create, hfind]

/-- C6: resolving an unknown email creates exactly one user whose name is
the title-cased local part of the email, with zero points and no badges;
a second resolution of the same email leaves the store unchanged. -/
theorem resolve_or_create_unknown (d : DB) (email : String)
    (h : d.users.filter (fun u => u.email == email) = []) :
    (resolve_or_create d email).users.filter (fun u => u.email == email) =
      [{ name := titlecase (localPart email), email := email
       , points := 0, badges := [] }] ∧
    resolve_or_create (resolve_or_create d email) email =
      resolve_or_create d email := by
  have hf : d.users.find? (fun u => u.email == email) = none :=
    find?_eq_none_of_filter_eq_nil _ _ h
  have husers : (resolve_or_create d email).users = d.users ++ [mkDefaultUser email] := by
    rw [resolve_or_create, hf]
  constructor
  · rw [husers, List.filter_append, h]
    simp [mkDefaultUser]
  · refine resolve_or_create_of_found _ _ ?_
    rw [husers, find?_append_of_none _ _ _ hf,
      List.find?_cons_of_pos _ (by simp [mkDefaultUser])]
    rfl

/-- C7: the dashboard leaderboard is the first 10 entries of the
(user_email, xp) projection of all progress records sorted by descending
xp, for any requesting user; with xp values [50, 30, 80] the entries come
back ordered [80, 50, 30]. -/
theorem dashboard_leaderboard_top10 (d : DB) (email slug : String) :
    List.Sorted xpDesc (dashboard (some d) email slug).leaderboard ∧
    (dashboard (some d) email slug).leaderboard.length ≤ 10 ∧
    (∃ l, l.Perm (d.progresses.map (fun p => (p.user_email, p.xp))) ∧
      List.Sorted xpDesc l ∧
      (dashboard (some d) email slug).leaderboard = l.take 10) ∧
    (dashboard (some dbBoard) email slug).leaderboard =
      [("c@x.com", 80), ("a@x.com", 50), ("b@x.com", 30)] := by
  have hlb : (dashboard (some d) email slug).leaderboard =
      (List.insertionSort xpDesc
        (d.progresses.map (fun p => (p.user_email, p.xp)))).take 10 := rfl
  refine ⟨?_, ?_, ?_, ?_⟩
  · rw [hlb]
    exact (List.sorted_insertionSort xpDesc _).sublist (List.take_sublist _ _)
  · rw [hlb]
    exact List.length_take_le _ _
  · exact ⟨List.insertionSort xpDesc (d.progresses.map (fun p => (p.user_email, p.xp))),
      List.perm_insertionSort xpDesc _, List.sorted_insertionSort xpDesc _, hlb⟩
  · have h2 : (dashboard (some dbBoard) email slug).leaderboard =
        (List.insertionSort xpDesc
          (dbBoard.progresses.map (fun p => (p.user_email, p.xp)))).take 10 := rfl
    rw [h2]
    decide

theorem certMatch_certUpd (e s : String) (cid : Nat) (c : CertDoc)
    (h : certMatch e s c = true) : certMatch e s (certUpd cid c) = true := h

theorem certMatch_certIns (e s : String) (cid : Nat) :
    certMatch e s (certIns e s cid) = true := by
  simp [certMatch, certIns]

theorem filter_cert_upsert (l : List CertDoc) (e s : String) (cid : Nat)
    (h : (l.filter (certMatch e s)).length ≤ 1) :
    (upsertOne l (certMatch e s) (certUpd cid) (certIns e s cid)).filter (certMatch e s)
      = [certIns e s cid] := by
  cases hfil : l.filter (certMatch e s) with
  | nil =>
    rw [upsertOne_of_find?_eq_none _ _ _ _ (find?_eq_none_of_filter_eq_nil _ _ hfil),
      List.filter_append, hfil]
    simp [certMatch_certIns]
  | cons x rest =>
    cases rest with
    | nil =>
      rw [filter_upsertOne_singleton _ _ _ _ _ (certMatch_certUpd e s cid) hfil]
      have hmem : x ∈ l.filter (certMatch e s) := by
        rw [hfil]
        exact List.mem_cons_self _ _
      have hx : certMatch e s x = true := List.of_mem_filter hmem
      have h1 : x.user_email = e := by
        simp only [certMatch, Bool.and_eq_true, beq_iff_eq] at hx
        exact hx.1
      have h2 : x.course_slug = s := by
        simp only [certMatch, Bool.and_eq_true, beq_iff_eq] at hx
        exact hx.2
      simp [certUpd, certIns, h1, h2]
    | cons y t =>
      rw [hfil] at h
      simp at h

/-- C8: each `issue_certificate` call produces a fresh certificate id and
upserts the pair's single Certificate record with verified set; two calls
for the same pair yield two different ids and only the latest id remains
stored. -/
theorem issue_certificate_unique_overwrite (d : DB) (e s : String)
    (h : (d.certificates.filter (certMatch e s)).length ≤ 1) :
    (issue_certificate_db d e s).1.certificates.filter (certMatch e s) =
      [{ user_email := e, course_slug := s
       , certificate_id := (issue_certificate_db d e s).2, verified := true }] ∧
    (issue_certificate_db (issue_certificate_db d e s).1 e s).1.certificates.filter
        (certMatch e s) =
      [{ user_email := e, course_slug := s
       , certificate_id := (issue_certificate_db (issue_certificate_db d e s).1 e s).2
       , verified := true }] ∧
    (issue_certificate_db d e s).2 ≠
      (issue_certificate_db (issue_certificate_db d e s).1 e s).2 := by
  have hA : (issue_certificate_db d e s).1.certificates.filter (certMatch e s) =
      [certIns e s d.nextObjectId] :=
    filter_cert_upsert d.certificates e s d.nextObjectId h
  have hlen : ((issue_certificate_db d e s).1.certificates.filter (certMatch e s)).length ≤ 1 := by
    rw [hA]
    simp
  have hB : (issue_certificate_db (issue_certificate_db d e s).1 e s).1.certificates.filter
      (certMatch e s) = [certIns e s (d.nextObjectId + 1)] :=
    filter_cert_upsert _ e s _ hlen
  exact ⟨hA, hB, Nat.ne_of_lt (Nat.lt_succ_self _)⟩

theorem get_current_user_some (odb : Option DB) (tok : Jwt) (now : Nat)
    (u : UserDoc) (h : get_current_user odb tok now = Except.ok u) :
    ∃ d, odb = some d := by
  cases odb with
  | some d => exact ⟨d, rfl⟩
  | none =>
    exfalso
    unfold get_current_user at h
    cases hv : validate_token tok now with
    | none => rw [hv] at h; cases h
    | some em => rw [hv] at h; simp [find_one_user] at h

/-- C9: when the authenticated token subject differs from the target email,
`enroll`, `complete_lesson` and `issue_certificate` all fail with Forbidden
and leave the store unchanged. -/
theorem forbidden_preserves_store (odb : Option DB) (tok : Jwt) (now : Nat)
    (u : UserDoc) (e s lid : String) (xr : Int)
    (hu : get_current_user odb tok now = Except.ok u)
    (hne : u.email ≠ e) :
    enroll odb tok now e s = (Except.error ApiError.forbidden, odb) ∧
    complete_lesson odb tok now
        { email := e, course_slug := s, lesson_id := lid, xp := xr } =
      (Except.error ApiError.forbidden, odb) ∧
    issue_certificate odb tok now e s = (Except.error ApiError.forbidden, odb) := by
  obtain ⟨d, rfl⟩ := get_current_user_some odb tok now u hu
  have hbe : (u.email == e) = false := by
    simp [hne]
  refine ⟨?_, ?_, ?_⟩
  · simp [enroll, hu, hbe]
  · simp [complete_lesson, hu, hbe]
  · simp [issue_certificate, hu, hbe]

/-- C10: a correctly signed, unexpired token whose subject has no User
record is rejected with Unauthorized by every bearer-protected operation. -/
theorem unknown_user_unauthorized (odb : Option DB) (e : String)
    (t0 L now : Nat) (hnow : now ≤ t0 + L)
    (hu : find_one_user odb e = none) :
    get_current_user odb (create_access_token e t0 L) now =
      Except.error ApiError.unauthorized ∧
    me odb (create_access_token e t0 L) now =
      Except.error ApiError.unauthorized ∧
    (∀ pe ps : String, enroll odb (create_access_token e t0 L) now pe ps =
      (Except.error ApiError.unauthorized, odb)) ∧
    (∀ body : ProgressUpdate,
      complete_lesson odb (create_access_token e t0 L) now body =
        (Except.error ApiError.unauthorized, odb)) ∧
    (∀ pe ps : String,
      issue_certificate odb (create_access_token e t0 L) now pe ps =
        (Except.error ApiError.unauthorized, odb)) := by
  have hval : validate_token (create_access_token e t0 L) now = some e := by
    simp [validate_token, create_access_token, jwtEncode, jwtDecode, hnow]
  have hget : get_current_user odb (create_access_token e t0 L) now =
      Except.error ApiError.unauthorized := by
    simp [get_current_user, hval, hu]
  exact ⟨hget, hget, fun pe ps => by simp [enroll, hget],
    fun body => by simp [complete_lesson, hget],
    fun pe ps => by simp [issue_certificate, hget]⟩

/-- Witness for C1: alice completes a fourth distinct lesson and the call
returns week 2. -/
theorem complete_lesson_week_formula_witness :
    get_current_user (some dbThree) aliceTok 5 = Except.ok aliceUser ∧
    aliceUser.email = aliceBody.email ∧
    (lessonsOf dbThree aliceBody.email aliceBody.course_slug).Nodup ∧
    (complete_lesson (some dbThree) aliceTok 5 aliceBody).1 = Except.ok 2 :=
  ⟨rfl, rfl, by decide,
    complete_lesson_week_formula dbThree aliceTok 5 aliceBody aliceUser rfl rfl (by decide)⟩

/-- Witness for C2: four completions from an empty progress record. -/
theorem week_unlocked_monotone_witness :
    List.Pairwise (fun a b => a ≤ b)
      (weekSeq dbAlice "alice@x.com" "3-week-ai"
        [("l1", 10), ("l2", 10), ("l3", 10), ("l4", 10)]) ∧
    (1 ≤ 2 ∧ 2 ≤ 3) ∧
    weekStored (complete_lesson_db dbAlice "alice@x.com" "3-week-ai" "l1" 10).1
        "alice@x.com" "3-week-ai" =
      some (complete_lesson_db dbAlice "alice@x.com" "3-week-ai" "l1" 10).2 := by
  have T := week_unlocked_monotone dbAlice "alice@x.com" "3-week-ai"
    [("l1", 10), ("l2", 10), ("l3", 10), ("l4", 10)]
  exact ⟨T.1, T.2.1 2 (by decide), T.2.2.1 "l1" 10⟩

/-- Witness for C3: enrolling alice twice from an empty store. -/
theorem enroll_idempotent_witness :
    dbAlice.enrollments.filter (enrollMatch "alice@x.com" "3-week-ai") = [] ∧
    dbAlice.progresses.filter (progMatch "alice@x.com" "3-week-ai") = [] ∧
    (enroll_db dbAlice "alice@x.com" "3-week-ai").enrollments.filter
        (enrollMatch "alice@x.com" "3-week-ai") =
      [{ user_email := "alice@x.com", course_slug := "3-week-ai", status := "enrolled" }] ∧
    (enroll_db dbAlice "alice@x.com" "3-week-ai").progresses.filter
        (progMatch "alice@x.com" "3-week-ai") =
      [{ user_email := "alice@x.com", course_slug := "3-week-ai"
       , lessons_completed := [], week_unlocked := some 1, xp := 0 }] ∧
    enroll_db (enroll_db dbAlice "alice@x.com" "3-week-ai") "alice@x.com" "3-week-ai" =
      enroll_db dbAlice "alice@x.com" "3-week-ai" := by
  have T := enroll_idempotent dbAlice "alice@x.com" "3-week-ai" rfl rfl
  exact ⟨rfl, rfl, T.1, T.2.1, T.2.2⟩

/-- Witness for C4: re-completing lesson l1 keeps the set and adds 10 xp. -/
theorem complete_lesson_xp_always_witness :
    "l1" ∈ lessonsOf dbThree "alice@x.com" "3-week-ai" ∧
    lessonsOf (complete_lesson_db dbThree "alice@x.com" "3-week-ai" "l1" 10).1
        "alice@x.com" "3-week-ai" =
      lessonsOf dbThree "alice@x.com" "3-week-ai" ∧
    xpOf (complete_lesson_db dbThree "alice@x.com" "3-week-ai" "l1" 10).1
        "alice@x.com" "3-week-ai" =
      xpOf dbThree "alice@x.com" "3-week-ai" + 10 := by
  have T := complete_lesson_xp_always dbThree "alice@x.com" "3-week-ai" "l1" 10
  exact ⟨by decide, T.1 (by decide), T.2⟩

/-- Witness for C5: round trip at time 5, expiry at 100, a tampered token
and a token without a subject. -/
theorem token_roundtrip_witness :
    validate_token (create_access_token "alice@x.com" 0 100) 5 = some "alice@x.com" ∧
    validate_token (create_access_token "alice@x.com" 0 100) 200 = none ∧
    validate_token badTok 5 = none ∧
    validate_token noSubTok 5 = none ∧
    get_current_user (some dbAlice) (create_access_token "alice@x.com" 0 100) 200 =
      Except.error ApiError.unauthorized ∧
    get_current_user (some dbAlice) badTok 5 = Except.error ApiError.unauthorized :=
  ⟨(token_roundtrip "alice@x.com" 0 100 5 badTok (some dbAlice)).1 (by decide),
   (token_roundtrip "alice@x.com" 0 100 200 badTok (some dbAlice)).2.1 (by decide),
   (token_roundtrip "alice@x.com" 0 100 5 badTok (some dbAlice)).2.2.1 (by decide),
   (token_roundtrip "alice@x.com" 0 100 5 noSubTok (some dbAlice)).2.2.2.1 rfl,
   (token_roundtrip "alice@x.com" 0 100 200 badTok (some dbAlice)).2.2.2.2.1 (by decide),
   (token_roundtrip "alice@x.com" 0 100 5 badTok (some dbAlice)).2.2.2.2.2 (by decide)⟩

/-- Witness for C6: resolving the unknown email bob@x.com creates Bob. -/
theorem resolve_or_create_unknown_witness :
    dbAlice.users.filter (fun u => u.email == "bob@x.com") = [] ∧
    (resolve_or_create dbAlice "bob@x.com").users.filter
        (fun u => u.email == "bob@x.com") =
      [{ name := "Bob", email := "bob@x.com", points := 0, badges := [] }] ∧
    resolve_or_create (resolve_or_create dbAlice "bob@x.com") "bob@x.com" =
      resolve_or_create dbAlice "bob@x.com" := by
  have T := resolve_or_create_unknown dbAlice "bob@x.com" rfl
  exact ⟨rfl, T.1.trans (by decide), T.2⟩

/-- Witness for C8: two certificates issued to alice get ids 0 and 1, and
only the latest is stored. -/
theorem issue_certificate_unique_overwrite_witness :
    (dbAlice.certificates.filter (certMatch "alice@x.com" "3-week-ai")).length ≤ 1 ∧
    (issue_certificate_db dbAlice "alice@x.com" "3-week-ai").1.certificates.filter
        (certMatch "alice@x.com" "3-week-ai") =
      [{ user_email := "alice@x.com", course_slug := "3-week-ai"
       , certificate_id := (issue_certificate_db dbAlice "alice@x.com" "3-week-ai").2
       , verified := true }] ∧
    (issue_certificate_db (issue_certificate_db dbAlice "alice@x.com" "3-week-ai").1
        "alice@x.com" "3-week-ai").1.certificates.filter
        (certMatch "alice@x.com" "3-week-ai") =
      [{ user_email := "alice@x.com", course_slug := "3-week-ai"
       , certificate_id :=
           (issue_certificate_db
             (issue_certificate_db dbAlice "alice@x.com" "3-week-ai").1
             "alice@x.com" "3-week-ai").2
       , verified := true }] ∧
    (issue_certificate_db dbAlice "alice@x.com" "3-week-ai").2 ≠
      (issue_certificate_db (issue_certificate_db dbAlice "alice@x.com" "3-week-ai").1
        "alice@x.com" "3-week-ai").2 := by
  have T := issue_certificate_unique_overwrite dbAlice "alice@x.com" "3-week-ai" (by decide)
  exact ⟨by decide, T.1, T.2.1, T.2.2⟩

/-- Witness for C9: alice's token acting on bob's email is Forbidden and
the store is untouched. -/
theorem forbidden_preserves_store_witness :
    get_current_user (some dbAlice) aliceTok 5 = Except.ok aliceUser ∧
    aliceUser.email ≠ "bob@x.com" ∧
    enroll (some dbAlice) aliceTok 5 "bob@x.com" "3-week-ai" =
      (Except.error ApiError.forbidden, some dbAlice) ∧
    complete_lesson (some dbAlice) aliceTok 5
        { email := "bob@x.com", course_slug := "3-week-ai", lesson_id := "l1", xp := 10 } =
      (Except.error ApiError.forbidden, some dbAlice) ∧
    issue_certificate (some dbAlice) aliceTok 5 "bob@x.com" "3-week-ai" =
      (Except.error ApiError.forbidden, some dbAlice) := by
  have T := forbidden_preserves_store (some dbAlice) aliceTok 5 aliceUser
    "bob@x.com" "3-week-ai" "l1" 10 rfl (by decide)
  exact ⟨rfl, by decide, T.1, T.2.1, T.2.2⟩

/-- Witness for C10: a valid token for bob, who has no user record. -/
theorem unknown_user_unauthorized_witness :
    5 ≤ 0 + 100 ∧
    find_one_user (some dbAlice) "bob@x.com" = none ∧
    get_current_user (some dbAlice) (create_access_token "bob@x.com" 0 100) 5 =
      Except.error ApiError.unauthorized ∧
    me (some dbAlice) (create_access_token "bob@x.com" 0 100) 5 =
      Except.error ApiError.unauthorized ∧
    enroll (some dbAlice) (create_access_token "bob@x.com" 0 100) 5
        "bob@x.com" "3-week-ai" =
      (Except.error ApiError.unauthorized, some dbAlice) ∧
    complete_lesson (some dbAlice) (create_access_token "bob@x.com" 0 100) 5
        { email := "bob@x.com", course_slug := "3-week-ai", lesson_id := "l1", xp := 10 } =
      (Except.error ApiError.unauthorized, some dbAlice) ∧
    issue_certificate (some dbAlice) (create_access_token "bob@x.com" 0 100) 5
        "bob@x.com" "3-week-ai" =
      (Except.error ApiError.unauthorized, some dbAlice) := by
  have T := unknown_user_unauthorized (some dbAlice) "bob@x.com" 0 100 5
    (by decide) rfl
  exact ⟨by decide, rfl, T.1, T.2.1, T.2.2.1 "bob@x.com" "3-week-ai",
    T.2.2.2.1 { email := "bob@x.com", course_slug := "3-week-ai", lesson_id := "l1", xp := 10 },
    T.2.2.2.2 "bob@x.com" "3-week-ai"⟩
